import Mathlib

/-!
Verification of the revisioned-deploy core in `lib/s3.js` (ember-cli-deploy-s3-index).

The JavaScript source is shallowly embedded: promise-returning storage calls become
pure functions taking the storage backend's responses as explicit inputs, and each
orchestrator returns both its promise outcome (an `Except`) and the list of storage
mutation calls it issued, so that "zero writes" and "exactly one write/copy" are
provable facts about the model.
-/

/-- An entry of an S3 `listObjects` response's `Contents` array: key, last-modified
timestamp (modelled as a natural number, since only its ordering matters), and ETag. -/
structure S3Object where
  Key : String
  LastModified : Nat
  ETag : String
deriving DecidableEq

/-- The data resolved by a successful `headObject` call; only the `ETag` field is read
by `fetchRevisions`. -/
structure HeadData where
  ETag : String
deriving DecidableEq

deriving instance DecidableEq for Except

/-- An error surfaced by the AWS client callback; only its `code` field is inspected. -/
structure AwsError where
  code : String
deriving DecidableEq

/-- Embedding of the `headObject` wrapper: the client callback's outcome (either an
error or data) is the input.  `err.code === 'NotFound'` resolves with no value
(modelled `Except.ok none`), any other error rejects, success resolves with the data. -/
def headObject (r : Except AwsError HeadData) : Except AwsError (Option HeadData) :=
  match r with
  | Except.error e => if e.code = "NotFound" then Except.ok none else Except.error e
  | Except.ok d => Except.ok (some d)

/-- One `listObjects` response.  `NextMarker = none` models a backend response whose
`NextMarker` field is absent or empty (falsy in the source's `response.NextMarker ||`
fallback); the field is read nowhere else, so the quotient is behaviour-preserving. -/
structure ListResponse where
  Contents : List S3Object
  IsTruncated : Bool
  NextMarker : Option String
deriving DecidableEq

/-- Embedding of `getNextMarker`: `response.NextMarker || Contents[len-1].Key`.
The result is `none` exactly when the source expression throws a TypeError
(no explicit marker and an empty `Contents`, so `Contents[-1]` is `undefined`). -/
def getNextMarker (r : ListResponse) : Option String :=
  match r.NextMarker with
  | some m => some m
  | none => r.Contents.getLast?.map S3Object.Key

/-- Outcome of a whole listing run: the promise result (the accumulated `All`
collection or a rejection message) together with the `Marker` parameter of every
`listObjects` request issued, in request order (`none` for the initial request,
which carries no `Marker`). -/
structure ListingOutcome where
  result : Except String (List S3Object)
  requests : List (Option String)
deriving DecidableEq

/-- Embedding of `listObjectRecursively`: consume the backend's responses in order,
accumulating `Contents`; while a response is truncated, derive the next marker and
recurse; a missing derivable marker rejects (the thrown TypeError); running out of
modelled backend responses while still truncated is the model boundary `.error`. -/
def listObjectRecursively (marker : Option String) (acc : List S3Object)
    (reqs : List (Option String)) (pages : List ListResponse) : ListingOutcome :=
  match pages with
  | [] => { result := Except.error "no response", requests := reqs }
  | r :: rest =>
    let acc2 := acc ++ r.Contents
    let reqs2 := reqs ++ [marker]
    if r.IsTruncated then
      match getNextMarker r with
      | some m => listObjectRecursively (some m) acc2 reqs2 rest
      | none => { result := Except.error "TypeError: cannot read Key of undefined",
                  requests := reqs2 }
    else
      { result := Except.ok acc2, requests := reqs2 }

/-- Embedding of `listAllObjects`: start with no marker and an empty accumulator. -/
def listAllObjects (pages : List ListResponse) : ListingOutcome :=
  listObjectRecursively none [] [] pages

/-- Modelled from the spec: the repository's `lib/util/join-uri-segments.js` is not
among the provided sources.  Per §4.1 it joins two segments with a single separator,
collapsing a duplicate separator at the join point and producing no artifacts for an
empty head segment. -/
def joinUriSegments (head tl : String) : String :=
  if head = "" then tl
  else (if head.data.getLast? = some '/' then String.mk head.data.dropLast else head)
    ++ "/" ++ tl

/-- Revision key built by `upload`/`activate`: `joinUriSegments(prefix, filePattern + ":" + revisionKey)`. -/
def buildRevisionKey (p f r : String) : String :=
  joinUriSegments p (f ++ ":" ++ r)

/-- Revision listing prefix computed by `fetchRevisions`: `joinUriSegments(prefix, filePattern + ":")`. -/
def revisionListingPre (p f : String) : String :=
  joinUriSegments p (f ++ ":")

/-- Index key: `joinUriSegments(prefix, filePattern)`. -/
def indexKeyOf (p f : String) : String :=
  joinUriSegments p f

/-- The configuration fields that drive the control flow of `upload`, `activate` and
`fetchRevisions`.  Pass-through fields that only populate write parameters
(`acl`, `cacheControl`, `filePath`, `gzippedFilePaths`, `serverSideEncryption`) do
not affect which storage calls are made and are omitted.  The field `pathPre`
models the source's `options.prefix` (renamed: `prefix` is a Lean keyword). -/
structure DeployOptions where
  bucket : String
  pathPre : String
  filePattern : String
  revisionKey : String
  allowOverwrite : Bool
deriving DecidableEq

/-- A revision-ledger record produced by `fetchRevisions`. -/
structure RevisionRecord where
  revision : String
  timestamp : Nat
  active : Bool
deriving DecidableEq

/-- The source's sort comparator `new Date(b.LastModified) - new Date(a.LastModified)`
orders an element `a` before `b` exactly when `b.LastModified ≤ a.LastModified`. -/
def newestFirst (a b : S3Object) : Prop :=
  b.LastModified ≤ a.LastModified

instance : DecidableRel newestFirst :=
  fun a b => Nat.decLe b.LastModified a.LastModified

instance : IsTotal S3Object newestFirst :=
  ⟨fun a b => Nat.le_total b.LastModified a.LastModified⟩

instance : IsTrans S3Object newestFirst :=
  ⟨fun _ _ _ hab hbc => Nat.le_trans hbc hab⟩

/-- The callback mapped over the sorted listing: strip the revision listing prefix
off the key, keep the timestamp, and mark active exactly when the head probe
resolved with data whose ETag equals this object's ETag
(`data.current && d.ETag === data.current.ETag`). -/
def makeRevisionRecord (revisionPre : String) (current : Option HeadData)
    (d : S3Object) : RevisionRecord :=
  { revision := d.Key.drop revisionPre.length
    timestamp := d.LastModified
    active := match current with
      | some c => d.ETag == c.ETag
      | none => false }

/-- Embedding of `fetchRevisions`: takes the resolved values of the two storage
queries (`listed` = the listing's `All` collection, `current` = the head probe's
optional result), sorts newest-first with the source's comparator (JavaScript
`Array.prototype.sort` is stable; a stable comparison sort models it), and maps
each listed object to its record. -/
def fetchRevisions (opts : DeployOptions) (listed : List S3Object)
    (current : Option HeadData) : List RevisionRecord :=
  let revisionPre := revisionListingPre opts.pathPre opts.filePattern
  (listed.insertionSort newestFirst).map (makeRevisionRecord revisionPre current)

/-- The rejection message of `upload` on a duplicate revision. -/
def dupMsg : String :=
  "REVISION ALREADY UPLOADED! (set `allowOverwrite: true` if you want to support overwriting revisions)"

/-- The rejection message of `activate` on a missing revision. -/
def notFoundMsg : String :=
  "REVISION NOT FOUND!"

/-- Outcome of `upload`: the promise result plus the keys of all `putObject` calls
issued, in order. -/
structure UploadOutcome where
  result : Except String Unit
  putCalls : List String
deriving DecidableEq

/-- Embedding of `upload`'s control flow: build the revision key, fetch the ledger,
reject when the revision identifier is already present and overwriting is not
allowed (`found >= 0 && !allowOverwrite`), otherwise issue exactly one `putObject`
of the revision key.  The local file read and the write parameters only shape the
uploaded object's body and metadata, not which calls are made. -/
def upload (opts : DeployOptions) (listed : List S3Object)
    (current : Option HeadData) : UploadOutcome :=
  let revisionKey := buildRevisionKey opts.pathPre opts.filePattern opts.revisionKey
  let revisions := fetchRevisions opts listed current
  let found := (revisions.map RevisionRecord.revision).contains opts.revisionKey
  if found && !opts.allowOverwrite then
    { result := Except.error dupMsg, putCalls := [] }
  else
    { result := Except.ok (), putCalls := [revisionKey] }

/-- One `copyObject` call: the `CopySource` (the bucket and the source key joined by
a slash; the source's URI-encoding of this string is not modelled) and the
destination `Key`. -/
structure CopyCall where
  CopySource : String
  Key : String
deriving DecidableEq

/-- Outcome of `activate`: the promise result plus all `copyObject` calls issued. -/
structure ActivateOutcome where
  result : Except String Unit
  copyCalls : List CopyCall
deriving DecidableEq

/-- Embedding of `activate`'s control flow: fetch the ledger; when the revision
identifier is present (`found >= 0`) issue exactly one server-side copy from the
revision key to the index key, otherwise reject and copy nothing. -/
def activate (opts : DeployOptions) (listed : List S3Object)
    (current : Option HeadData) : ActivateOutcome :=
  let revisionKey := buildRevisionKey opts.pathPre opts.filePattern opts.revisionKey
  let indexKey := indexKeyOf opts.pathPre opts.filePattern
  let revisions := fetchRevisions opts listed current
  let found := (revisions.map RevisionRecord.revision).contains opts.revisionKey
  if found then
    { result := Except.ok (),
      copyCalls := [{ CopySource := opts.bucket ++ "/" ++ revisionKey, Key := indexKey }] }
  else
    { result := Except.error notFoundMsg, copyCalls := [] }

/-- Fixture: a single uploaded revision "v1" under prefix "app". -/
def wList : List S3Object :=
  [⟨"app/index.html:v1", 10, "e1"⟩]

/-- Fixture: deploy options for revision "v1" with overwriting disallowed. -/
def wOptsNo : DeployOptions :=
  ⟨"bucket", "app", "index.html", "v1", false⟩

/-- Fixture: deploy options for revision "v1" with overwriting allowed. -/
def wOptsYes : DeployOptions :=
  ⟨"bucket", "app", "index.html", "v1", true⟩

/-- Fixture: deploy options for the never-uploaded revision "v9". -/
def wOpts9 : DeployOptions :=
  ⟨"bucket", "app", "index.html", "v9", false⟩

/-- Fixture: three truncated pages of three objects each; the first and third carry
no explicit marker, the second carries the explicit marker "m6". -/
def wFront : List ListResponse :=
  [⟨[⟨"k1", 1, "e1"⟩, ⟨"k2", 2, "e2"⟩, ⟨"k3", 3, "e3"⟩], true, none⟩,
   ⟨[⟨"k4", 4, "e4"⟩, ⟨"k5", 5, "e5"⟩, ⟨"k6", 6, "e6"⟩], true, some "m6"⟩,
   ⟨[⟨"k7", 7, "e7"⟩, ⟨"k8", 8, "e8"⟩, ⟨"k9", 9, "e9"⟩], true, none⟩]

/-- Fixture: the final, non-truncated page with a single object. -/
def wLast : ListResponse :=
  ⟨[⟨"k10", 10, "e10"⟩], false, none⟩

/-- Helper: the join utility distributes over appending to its second segment. -/
theorem joinUriSegments_append (h a b : String) :
    joinUriSegments h (a ++ b) = joinUriSegments h a ++ b := by
  by_cases hh : h = ""
  · simp [joinUriSegments, hh]
  · simp [joinUriSegments, hh, String.append_assoc]

/-- Helper: dropping the length of a left append factor recovers the right factor. -/
theorem string_drop_length_append (x y : String) : (x ++ y).drop x.length = y := by
  rw [String.drop_eq]
  show String.mk (((x ++ y).data).drop x.length) = y
  rw [String.data_append, show x.length = x.data.length from rfl, List.drop_left]

/-- C7: the revision key built for upload is the revision listing prefix
(`indexKey + ":"` as joined by the key builder) followed by the revision
identifier, hence starts with that prefix, and stripping the prefix's length
off the built key recovers the revision identifier exactly, for every prefix
(with or without a trailing separator), file pattern and revision identifier. -/
theorem buildRevisionKey_roundtrip (p f r : String) :
    buildRevisionKey p f r = revisionListingPre p f ++ r ∧
    (revisionListingPre p f).data <+: (buildRevisionKey p f r).data ∧
    (buildRevisionKey p f r).drop (revisionListingPre p f).length = r := by
  have h1 : buildRevisionKey p f r = revisionListingPre p f ++ r := by
    unfold buildRevisionKey revisionListingPre
    exact joinUriSegments_append p (f ++ ":") r
  refine ⟨h1, ?_, ?_⟩
  · rw [h1, String.data_append]
    exact List.prefix_append _ _
  · rw [h1, string_drop_length_append]

/-- C8: the `headObject` wrapper resolves empty exactly on the dedicated `NotFound`
error code, resolves with the metadata on success, and rejects with the original
error on every other error. -/
theorem headObject_notfound_mapping (r : Except AwsError HeadData) :
    (headObject r = Except.ok none ↔ ∃ e, r = Except.error e ∧ e.code = "NotFound") ∧
    (∀ d, r = Except.ok d → headObject r = Except.ok (some d)) ∧
    (∀ e, r = Except.error e → e.code ≠ "NotFound" → headObject r = Except.error e) := by
  refine ⟨?_, ?_, ?_⟩
  · cases r with
    | error e =>
      by_cases hc : e.code = "NotFound" <;> simp [headObject, hc]
    | ok d => simp [headObject]
  · intro d hd
    subst hd
    simp [headObject]
  · intro e he hc
    subst he
    simp [headObject, hc]

/-- C8 witness: the three cases at concrete inputs. -/
theorem headObject_notfound_mapping_witness :
    headObject (Except.error ⟨"NotFound"⟩) = Except.ok none ∧
    headObject (Except.ok ⟨"etag"⟩) = Except.ok (some ⟨"etag"⟩) ∧
    headObject (Except.error ⟨"Throttled"⟩) = Except.error ⟨"Throttled"⟩ :=
  ⟨(headObject_notfound_mapping _).1.mpr ⟨⟨"NotFound"⟩, rfl, rfl⟩,
   (headObject_notfound_mapping _).2.1 _ rfl,
   (headObject_notfound_mapping _).2.2 _ rfl (by decide)⟩

/-- C5: the ledger returned by `fetchRevisions` is sorted by timestamp in
descending order (newest first). -/
theorem fetchRevisions_sorted_newest_first (opts : DeployOptions)
    (listed : List S3Object) (current : Option HeadData) :
    List.Sorted (fun a b : RevisionRecord => b.timestamp ≤ a.timestamp)
      (fetchRevisions opts listed current) := by
  unfold fetchRevisions
  exact List.Pairwise.map _ (fun a b hab => hab)
    (List.sorted_insertionSort newestFirst listed)

/-- C4: `fetchRevisions` marks a record active if and only if the index-key probe
resolved with an object whose ETag equals the listed object's ETag; when the index
key does not exist (probe resolved empty), no record of the returned ledger is
active.  The first conjunct pins the record constructor used by `fetchRevisions`. -/
theorem fetchRevisions_active_iff (opts : DeployOptions) (listed : List S3Object)
    (current : Option HeadData) :
    fetchRevisions opts listed current =
      (listed.insertionSort newestFirst).map
        (makeRevisionRecord (revisionListingPre opts.pathPre opts.filePattern) current) ∧
    (∀ d : S3Object,
      (makeRevisionRecord (revisionListingPre opts.pathPre opts.filePattern) current d).active
          = true ↔
        ∃ c, current = some c ∧ d.ETag = c.ETag) ∧
    (current = none →
      ∀ rec ∈ fetchRevisions opts listed current, rec.active = false) := by
  refine ⟨rfl, ?_, ?_⟩
  · intro d
    cases current with
    | none => simp [makeRevisionRecord]
    | some c => simp [makeRevisionRecord]
  · rintro rfl rec hrec
    unfold fetchRevisions at hrec
    obtain ⟨d, _, rfl⟩ := List.mem_map.mp hrec
    rfl

/-- C4 witness: with a matching probe result the record is active; with a missing
index object the sole returned record is inactive. -/
theorem fetchRevisions_active_iff_witness :
    (makeRevisionRecord (revisionListingPre "app" "index.html") (some ⟨"e1"⟩)
        ⟨"app/index.html:v1", 10, "e1"⟩).active = true ∧
    (makeRevisionRecord (revisionListingPre "app" "index.html") none
        ⟨"app/index.html:v1", 10, "e1"⟩).active = false :=
  ⟨((fetchRevisions_active_iff wOptsNo [] (some ⟨"e1"⟩)).2.1 _).mpr ⟨⟨"e1"⟩, rfl, rfl⟩,
   (fetchRevisions_active_iff wOptsNo wList none).2.2 rfl _ (by decide)⟩

/-- Helper: in a duplicate-free list at most one element equals any given value. -/
theorem countP_beq_le_one_of_nodup (l : List String) (x : String) (h : l.Nodup) :
    l.countP (fun y => y == x) ≤ 1 := by
  induction l with
  | nil => simp
  | cons a l ih =>
    rw [List.countP_cons]
    rcases List.nodup_cons.mp h with ⟨ha, hl⟩
    by_cases hax : a = x
    · have hz : l.countP (fun y => y == x) = 0 := by
        rw [List.countP_eq_zero]
        intro b hb
        simp only [beq_iff_eq]
        intro hbx
        exact ha (hbx.trans hax.symm ▸ hb)
      simp [hz, hax]
    · simp only [beq_iff_eq, hax]
      simpa using ih hl

/-- C6 counterexample: two listed revision objects sharing one ETag that also equals
the index object's ETag yield a ledger with two active records, so "at most one
record has active = true" fails on the code as stated. -/
theorem fetchRevisions_two_active_counterexample :
    1 < (fetchRevisions ⟨"b", "", "index.html", "v1", false⟩
        [⟨"index.html:v1", 1, "dup"⟩, ⟨"index.html:v2", 2, "dup"⟩]
        (some ⟨"dup"⟩)).countP (fun rec => rec.active) := by decide

/-- C6 amended: when the listed objects' fingerprints are pairwise distinct, the
ledger returned by `fetchRevisions` has at most one active record. -/
theorem fetchRevisions_at_most_one_active (opts : DeployOptions)
    (listed : List S3Object) (current : Option HeadData)
    (hdistinct : (listed.map S3Object.ETag).Nodup) :
    (fetchRevisions opts listed current).countP (fun rec => rec.active) ≤ 1 := by
  unfold fetchRevisions
  rw [List.countP_map, (List.perm_insertionSort newestFirst listed).countP_eq]
  cases current with
  | none =>
    have hz : listed.countP
        ((fun rec : RevisionRecord => rec.active) ∘
          makeRevisionRecord (revisionListingPre opts.pathPre opts.filePattern) none) = 0 := by
      rw [List.countP_eq_zero]
      intro d _
      exact Bool.false_ne_true
    rw [hz]
    exact Nat.zero_le 1
  | some c =>
    have hcomp :
        listed.countP
            ((fun rec : RevisionRecord => rec.active) ∘
              makeRevisionRecord (revisionListingPre opts.pathPre opts.filePattern) (some c)) =
          (listed.map S3Object.ETag).countP (fun y => y == c.ETag) := by
      rw [List.countP_map]
      rfl
    rw [hcomp]
    exact countP_beq_le_one_of_nodup _ _ hdistinct

/-- C6 witness: the amended bound at a concrete ledger with distinct fingerprints. -/
theorem fetchRevisions_at_most_one_active_witness :
    ((([⟨"index.html:v1", 1, "e1"⟩, ⟨"index.html:v2", 2, "e2"⟩] : List S3Object).map
        S3Object.ETag).Nodup) ∧
    (fetchRevisions ⟨"b", "", "index.html", "v1", false⟩
        [⟨"index.html:v1", 1, "e1"⟩, ⟨"index.html:v2", 2, "e2"⟩]
        (some ⟨"e2"⟩)).countP (fun rec => rec.active) ≤ 1 :=
  ⟨by decide, fetchRevisions_at_most_one_active _ _ _ (by decide)⟩

/-- Helper: the branch structure of `upload` with its lets unfolded. -/
theorem upload_eq (opts : DeployOptions) (listed : List S3Object)
    (current : Option HeadData) :
    upload opts listed current =
      if (((fetchRevisions opts listed current).map RevisionRecord.revision).contains
            opts.revisionKey && !opts.allowOverwrite) = true
      then ⟨Except.error dupMsg, []⟩
      else ⟨Except.ok (), [buildRevisionKey opts.pathPre opts.filePattern opts.revisionKey]⟩ :=
  rfl

/-- Helper: the branch structure of `activate` with its lets unfolded. -/
theorem activate_eq (opts : DeployOptions) (listed : List S3Object)
    (current : Option HeadData) :
    activate opts listed current =
      if (((fetchRevisions opts listed current).map RevisionRecord.revision).contains
            opts.revisionKey) = true
      then ⟨Except.ok (),
            [⟨opts.bucket ++ "/" ++ buildRevisionKey opts.pathPre opts.filePattern opts.revisionKey,
              indexKeyOf opts.pathPre opts.filePattern⟩]⟩
      else ⟨Except.error notFoundMsg, []⟩ :=
  rfl

/-- C1: `upload` consults the ledger first; when a record's revision identifier
equals the descriptor's and overwriting is disallowed it rejects with the
duplicate-revision message and issues zero `putObject` calls; otherwise it issues
exactly one `putObject` of the revision key. -/
theorem upload_overwrite_guard (opts : DeployOptions) (listed : List S3Object)
    (current : Option HeadData) :
    (opts.revisionKey ∈ (fetchRevisions opts listed current).map RevisionRecord.revision →
      opts.allowOverwrite = false →
      upload opts listed current = ⟨Except.error dupMsg, []⟩) ∧
    (opts.revisionKey ∉ (fetchRevisions opts listed current).map RevisionRecord.revision ∨
        opts.allowOverwrite = true →
      upload opts listed current =
        ⟨Except.ok (), [buildRevisionKey opts.pathPre opts.filePattern opts.revisionKey]⟩) := by
  constructor
  · intro hmem hov
    have hc : ((fetchRevisions opts listed current).map RevisionRecord.revision).contains
        opts.revisionKey = true := List.elem_iff.mpr hmem
    rw [upload_eq, if_pos (by rw [hc, hov]; rfl)]
  · intro h
    have hcond : (((fetchRevisions opts listed current).map RevisionRecord.revision).contains
        opts.revisionKey && !opts.allowOverwrite) = false := by
      rcases h with hmem | hov
      · have hc : ((fetchRevisions opts listed current).map RevisionRecord.revision).contains
            opts.revisionKey = false := by
          rw [Bool.eq_false_iff]
          intro hcc
          exact hmem (List.elem_iff.mp hcc)
        rw [hc, Bool.false_and]
      · rw [hov, Bool.not_true, Bool.and_false]
    rw [upload_eq, if_neg (by rw [hcond]; exact Bool.false_ne_true)]

/-- C1 witness: uploading the already-present revision "v1" with overwriting
disallowed rejects with zero writes; the same call with overwriting allowed
issues exactly one write of the revision key. -/
theorem upload_overwrite_guard_witness :
    upload wOptsNo wList none = ⟨Except.error dupMsg, []⟩ ∧
    upload wOptsYes wList none =
      ⟨Except.ok (), [buildRevisionKey "app" "index.html" "v1"]⟩ :=
  ⟨(upload_overwrite_guard wOptsNo wList none).1 (by decide) rfl,
   (upload_overwrite_guard wOptsYes wList none).2 (Or.inr rfl)⟩

/-- C2: `activate` consults the ledger first; when no record's revision identifier
equals the descriptor's it rejects with the revision-not-found message and issues
zero `copyObject` calls; otherwise it issues exactly one server-side copy whose
source is the revision key (under the bucket) and whose destination is the index
key. -/
theorem activate_revision_guard (opts : DeployOptions) (listed : List S3Object)
    (current : Option HeadData) :
    (opts.revisionKey ∉ (fetchRevisions opts listed current).map RevisionRecord.revision →
      activate opts listed current = ⟨Except.error notFoundMsg, []⟩) ∧
    (opts.revisionKey ∈ (fetchRevisions opts listed current).map RevisionRecord.revision →
      activate opts listed current =
        ⟨Except.ok (),
         [⟨opts.bucket ++ "/" ++ buildRevisionKey opts.pathPre opts.filePattern opts.revisionKey,
           indexKeyOf opts.pathPre opts.filePattern⟩]⟩) := by
  constructor
  · intro hmem
    have hc : ((fetchRevisions opts listed current).map RevisionRecord.revision).contains
        opts.revisionKey = false := by
      rw [Bool.eq_false_iff]
      intro hcc
      exact hmem (List.elem_iff.mp hcc)
    rw [activate_eq, if_neg (by rw [hc]; exact Bool.false_ne_true)]
  · intro hmem
    have hc : ((fetchRevisions opts listed current).map RevisionRecord.revision).contains
        opts.revisionKey = true := List.elem_iff.mpr hmem
    rw [activate_eq, if_pos hc]

/-- C2 witness: activating the never-uploaded "v9" rejects with zero copies;
activating the present "v1" issues exactly one copy to the index key. -/
theorem activate_revision_guard_witness :
    activate wOpts9 wList none = ⟨Except.error notFoundMsg, []⟩ ∧
    activate wOptsNo wList none =
      ⟨Except.ok (),
       [⟨"bucket" ++ "/" ++ buildRevisionKey "app" "index.html" "v1",
         indexKeyOf "app" "index.html"⟩]⟩ :=
  ⟨(activate_revision_guard wOpts9 wList none).1 (by decide),
   (activate_revision_guard wOptsNo wList none).2 (by decide)⟩

/-- C9: a successful `upload` issues exactly one write, at the revision key, and
the index key is never among the keys `upload` writes. -/
theorem upload_index_frame (opts : DeployOptions) (listed : List S3Object)
    (current : Option HeadData) :
    ((upload opts listed current).result = Except.ok () →
      (upload opts listed current).putCalls =
        [buildRevisionKey opts.pathPre opts.filePattern opts.revisionKey]) ∧
    indexKeyOf opts.pathPre opts.filePattern ∉ (upload opts listed current).putCalls := by
  have hkey : buildRevisionKey opts.pathPre opts.filePattern opts.revisionKey =
      indexKeyOf opts.pathPre opts.filePattern ++ (":" ++ opts.revisionKey) := by
    unfold buildRevisionKey indexKeyOf
    rw [String.append_assoc]
    exact joinUriSegments_append _ _ _
  have hne : indexKeyOf opts.pathPre opts.filePattern ≠
      buildRevisionKey opts.pathPre opts.filePattern opts.revisionKey := by
    rw [hkey]
    intro heq
    have hlen := congrArg String.length heq
    rw [String.length_append, String.length_append] at hlen
    have hone : (":" : String).length = 1 := rfl
    omega
  by_cases hcond : (((fetchRevisions opts listed current).map RevisionRecord.revision).contains
      opts.revisionKey && !opts.allowOverwrite) = true
  · have hup : upload opts listed current = ⟨Except.error dupMsg, []⟩ := by
      rw [upload_eq, if_pos hcond]
    rw [hup]
    constructor
    · intro hres
      exact absurd hres (by simp)
    · exact List.not_mem_nil _
  · have hup : upload opts listed current =
        ⟨Except.ok (), [buildRevisionKey opts.pathPre opts.filePattern opts.revisionKey]⟩ := by
      rw [upload_eq, if_neg hcond]
    rw [hup]
    constructor
    · intro _
      rfl
    · intro hmem
      exact hne (List.mem_singleton.mp hmem)

/-- C9 witness: the successful upload of "v1" writes exactly the revision key and
the index key is not written. -/
theorem upload_index_frame_witness :
    (upload wOptsYes wList none).putCalls = [buildRevisionKey "app" "index.html" "v1"] ∧
    indexKeyOf "app" "index.html" ∉ (upload wOptsYes wList none).putCalls :=
  ⟨(upload_index_frame wOptsYes wList none).1 (by decide),
   (upload_index_frame wOptsYes wList none).2⟩

/-- Helper: running the listing over a block of truncated pages that all yield a
marker, followed by a non-truncated page, succeeds with all contents accumulated
in request order and one request per consumed page, whose markers are the initial
marker followed by each truncated page's derived marker. -/
theorem listRec_ok (front : List ListResponse) :
    ∀ (lastPage : ListResponse) (rest : List ListResponse) (marker : Option String)
      (acc : List S3Object) (reqs : List (Option String)),
      (∀ r ∈ front, r.IsTruncated = true ∧ getNextMarker r ≠ none) →
      lastPage.IsTruncated = false →
      listObjectRecursively marker acc reqs (front ++ lastPage :: rest) =
        { result := Except.ok (acc ++ ((front.map ListResponse.Contents).flatten
            ++ lastPage.Contents)),
          requests := reqs ++ marker :: front.map getNextMarker } := by
  induction front with
  | nil =>
    intro lastPage rest marker acc reqs _ hlast
    simp [listObjectRecursively, hlast]
  | cons r front ih =>
    intro lastPage rest marker acc reqs hfront hlast
    obtain ⟨ht, hm0⟩ := hfront r (List.mem_cons_self r front)
    obtain ⟨m, hm⟩ := Option.ne_none_iff_exists'.mp hm0
    have step : listObjectRecursively marker acc reqs ((r :: front) ++ lastPage :: rest) =
        listObjectRecursively (some m) (acc ++ r.Contents) (reqs ++ [marker])
          (front ++ lastPage :: rest) := by
      simp [listObjectRecursively, ht, hm]
    rw [step, ih lastPage rest (some m) (acc ++ r.Contents) (reqs ++ [marker])
        (fun x hx => hfront x (List.mem_cons_of_mem r hx)) hlast]
    simp [hm, List.append_assoc]

/-- Helper: running the listing over a block of well-behaved truncated pages and
then hitting a truncated page with no explicit marker and an empty item page
rejects with the TypeError surfaced by the marker derivation. -/
theorem listRec_fail (front : List ListResponse) :
    ∀ (bad : ListResponse) (rest : List ListResponse) (marker : Option String)
      (acc : List S3Object) (reqs : List (Option String)),
      (∀ r ∈ front, r.IsTruncated = true ∧ getNextMarker r ≠ none) →
      bad.IsTruncated = true → bad.NextMarker = none → bad.Contents = [] →
      (listObjectRecursively marker acc reqs (front ++ bad :: rest)).result =
        Except.error "TypeError: cannot read Key of undefined" := by
  induction front with
  | nil =>
    intro bad rest marker acc reqs _ hT hM hC
    have hbad : getNextMarker bad = none := by
      unfold getNextMarker
      rw [hM, hC]
      rfl
    simp [listObjectRecursively, hT, hbad]
  | cons r front ih =>
    intro bad rest marker acc reqs hfront hT hM hC
    obtain ⟨ht, hm0⟩ := hfront r (List.mem_cons_self r front)
    obtain ⟨m, hm⟩ := Option.ne_none_iff_exists'.mp hm0
    have step : listObjectRecursively marker acc reqs ((r :: front) ++ bad :: rest) =
        listObjectRecursively (some m) (acc ++ r.Contents) (reqs ++ [marker])
          (front ++ bad :: rest) := by
      simp [listObjectRecursively, ht, hm]
    rw [step]
    exact ih bad rest (some m) (acc ++ r.Contents) (reqs ++ [marker])
      (fun x hx => hfront x (List.mem_cons_of_mem r hx)) hT hM hC

/-- C3: over a backend whose first pages are all truncated (each yielding a
marker) and whose next page is the first non-truncated one, `listAllObjects`
returns exactly the concatenation of the consumed pages' items in request order,
stopping at the first non-truncated page (later pages are never requested), and
the markers sent are: none for the first request, then for each truncated page
its explicit `NextMarker` when present, else the key of its last item — the
latter being exactly what `getNextMarker` derives, as the final two conjuncts
record. -/
theorem listAllObjects_pagination (front : List ListResponse) (lastPage : ListResponse)
    (rest : List ListResponse)
    (hfront : ∀ r ∈ front, r.IsTruncated = true ∧ getNextMarker r ≠ none)
    (hlast : lastPage.IsTruncated = false) :
    listAllObjects (front ++ lastPage :: rest) =
      { result := Except.ok ((front.map ListResponse.Contents).flatten ++ lastPage.Contents),
        requests := none :: front.map getNextMarker } ∧
    (∀ r : ListResponse, ∀ m, r.NextMarker = some m → getNextMarker r = some m) ∧
    (∀ r : ListResponse, r.NextMarker = none →
      getNextMarker r = r.Contents.getLast?.map S3Object.Key) := by
  refine ⟨?_, ?_, ?_⟩
  · unfold listAllObjects
    rw [listRec_ok front lastPage rest none [] [] hfront hlast]
    simp
  · intro r m hr
    unfold getNextMarker
    rw [hr]
  · intro r hr
    unfold getNextMarker
    rw [hr]

/-- C3 witness: pages of sizes [3,3,3,1] with truncation flags
[true,true,true,false] yield exactly the ten items in original order; the markers
sent are none, then the last keys "k3", "k9" of the markerless pages and the
explicit marker "m6" of the second page. -/
theorem listAllObjects_pagination_witness :
    listAllObjects (wFront ++ wLast :: []) =
      { result := Except.ok [⟨"k1", 1, "e1"⟩, ⟨"k2", 2, "e2"⟩, ⟨"k3", 3, "e3"⟩,
          ⟨"k4", 4, "e4"⟩, ⟨"k5", 5, "e5"⟩, ⟨"k6", 6, "e6"⟩,
          ⟨"k7", 7, "e7"⟩, ⟨"k8", 8, "e8"⟩, ⟨"k9", 9, "e9"⟩, ⟨"k10", 10, "e10"⟩],
        requests := [none, some "k3", some "m6", some "k9"] } :=
  ((listAllObjects_pagination wFront wLast [] (by decide) rfl).1).trans (by decide)

/-- C10: the marker derivation is partial — when the listing reaches (after any
block of well-behaved truncated pages) a truncated response that supplies no
explicit marker and carries an empty item page, `getNextMarker` has no last item
key to read and the whole listing rejects with the TypeError instead of
terminating or continuing. -/
theorem listAllObjects_empty_page_failure (front : List ListResponse)
    (bad : ListResponse) (rest : List ListResponse)
    (hfront : ∀ r ∈ front, r.IsTruncated = true ∧ getNextMarker r ≠ none)
    (hT : bad.IsTruncated = true) (hM : bad.NextMarker = none) (hC : bad.Contents = []) :
    getNextMarker bad = none ∧
    (listAllObjects (front ++ bad :: rest)).result =
      Except.error "TypeError: cannot read Key of undefined" := by
  constructor
  · unfold getNextMarker
    rw [hM, hC]
    rfl
  · unfold listAllObjects
    exact listRec_fail front bad rest none [] [] hfront hT hM hC

/-- C10 witness: a single truncated, markerless, empty response makes the listing
fail. -/
theorem listAllObjects_empty_page_failure_witness :
    getNextMarker ⟨[], true, none⟩ = none ∧
    (listAllObjects [⟨[], true, none⟩]).result =
      Except.error "TypeError: cannot read Key of undefined" :=
  listAllObjects_empty_page_failure [] ⟨[], true, none⟩ []
    (by intro r hr; exact absurd hr (List.not_mem_nil r)) rfl rfl rfl
